import Mathlib

/-!
Shallow embedding of the Sequitur grammar-construction engine from
`src/js/script.js` (lpiribauer/sequitur_visual).

Symbols and rules live in explicit tables addressed by numeric ids, so the
JavaScript object graph becomes explicit state passing.  `null` pointers are
`Option.none`; the digram hash table is an association list from string keys
to `Option Nat` (the source clears slots by assigning `null`, so a key can be
present and map to nothing, which is falsy exactly like an absent key).
Fallible pointer dereferences return `none`; the mutually recursive
`check` / `processMatch` / `substitute` cascade is made total with a fuel
parameter that every recursive call decrements.

Rule ids are the source's `uniqueNumber` values (allocated from the
monotonically increasing `Rule.uniqueRuleNumber`, which starts at 1); the
cosmetic `number` field used only by the pretty printer is omitted.
-/

namespace Sequitur

/-- A JavaScript value as produced by `Symbol.prototype.value()`
(script.js:259-261): either a terminal string or a reference to a `Rule`
object, identified here by its unique number. -/
inductive JsVal where
  | str (s : String)
  | ruleRef (id : Nat)
deriving DecidableEq, Repr

/-- Loose JavaScript `==` on the (possibly `null`) results of `value()`:
`null == null` is true, two rule objects are equal iff they are the same
object, and a string equals a rule object only when the string is the
object's default coercion, the text obtained from Object.prototype.toString. -/
def jsEqV : Option JsVal → Option JsVal → Bool
  | none, none => true
  | some (.str s), some (.str t) => s == t
  | some (.ruleRef a), some (.ruleRef b) => a == b
  | some (.str s), some (.ruleRef _) => s == "[object Object]"
  | some (.ruleRef _), some (.str t) => t == "[object Object]"
  | _, _ => false

/-- One `Symbol` object (script.js:53-77): `next`/`prev` links, the
`terminal` value (iff terminal) and the `rule` reference (iff non-terminal,
or, for a guard, the owning rule). -/
structure Sym where
  next : Option Nat := none
  prev : Option Nat := none
  terminal : Option String := none
  rule : Option Nat := none
deriving DecidableEq, Repr

/-- One `Rule` object (script.js:1-18): its guard symbol and its reference
count.  The count is an `Int` because the source decrements it without a
lower bound. -/
structure RuleData where
  guard : Nat
  referenceCount : Int
deriving DecidableEq, Repr

/-- The whole mutable state of the engine: the symbol table, the rule table,
the global `digramIndex`, and the two allocation counters. -/
structure St where
  syms : List (Nat × Sym)
  rules : List (Nat × RuleData)
  digramIndex : List (String × Option Nat)
  nextSymId : Nat
  nextRuleNumber : Nat
deriving DecidableEq, Repr

/-- Replace the binding of `k` (or append it at the end) in an association
list; this models assignment to an object property. -/
def alUpdate {κ α : Type} [BEq κ] : List (κ × α) → κ → α → List (κ × α)
  | [], k, v => [(k, v)]
  | (k', v') :: rest, k, v =>
      if k' == k then (k, v) :: rest else (k', v') :: alUpdate rest k v

def getSym (st : St) (i : Nat) : Option Sym :=
  st.syms.lookup i

def setSym (st : St) (i : Nat) (s : Sym) : St :=
  { st with syms := alUpdate st.syms i s }

def getRuleD (st : St) (r : Nat) : Option RuleData :=
  st.rules.lookup r

def setRuleD (st : St) (r : Nat) (rd : RuleData) : St :=
  { st with rules := alUpdate st.rules r rd }

/-- Symbol.prototype.value (script.js:259-261): the rule reference for
non-terminals (and guards), otherwise the terminal; `none` is JS `null`
(a symbol with neither field, or a dangling id, which never occurs for
allocated symbols). -/
def value (st : St) (x : Nat) : Option JsVal :=
  match getSym st x with
  | none => none
  | some s =>
      match s.rule with
      | some r => some (.ruleRef r)
      | none =>
          match s.terminal with
          | some t => some (.str t)
          | none => none

/-- Symbol.prototype.stringValue (script.js:263-269). -/
def stringValue (st : St) (x : Nat) : Option String := do
  let s ← getSym st x
  match s.rule with
  | some r => pure ("rule:" ++ Nat.repr r)
  | none => s.terminal

/-- Symbol.prototype.hashValue (script.js:271-274); crashes (`none`) when
`next` is null. -/
def hashValue (st : St) (x : Nat) : Option String := do
  let a ← stringValue st x
  let s ← getSym st x
  let n ← s.next
  let b ← stringValue st n
  pure (a ++ "+" ++ b)

/-- Symbol.prototype.isGuard (script.js:147-149):
`this.getRule() && this.getRule().first().getPrev() == this`.  A rule-less
symbol yields the falsy `null`, modelled as `false`; a null `first()` makes
`getPrev()` crash. -/
def isGuard (st : St) (x : Nat) : Option Bool := do
  let s ← getSym st x
  match s.rule with
  | none => pure false
  | some r => do
      let rd ← getRuleD st r
      let g ← getSym st rd.guard
      let f ← g.next
      let fs ← getSym st f
      pure (fs.prev == some x)

/-- Symbol.prototype.deleteDigram (script.js:125-133): remove the index
entry for this digram, but only if it still points at this symbol. -/
def deleteDigram (st : St) (x : Nat) : Option St := do
  let gx ← isGuard st x
  if gx then pure st
  else do
    let s ← getSym st x
    let n ← s.next
    let gn ← isGuard st n
    if gn then pure st
    else do
      let h ← hashValue st x
      match st.digramIndex.lookup h with
      | some (some j) =>
          if j == x then pure { st with digramIndex := alUpdate st.digramIndex h none }
          else pure st
      | _ => pure st

/-- The triple re-seeding step that `join` performs on each endpoint
(script.js:92-95 for `right` and 98-102 for `this`, identical up to the
order of the pure conjuncts): when `x` has both neighbours and all three
values are equal (a triple of identical symbols), record `x`'s current
digram in the index. -/
def tripleReseed (st : St) (x : Nat) : Option St := do
  let s ← getSym st x
  match s.prev, s.next with
  | some p, some n =>
      if jsEqV (value st x) (value st p) && jsEqV (value st x) (value st n) then do
        let h ← hashValue st x
        pure { st with digramIndex := alUpdate st.digramIndex h (some x) }
      else pure st
  | _, _ => pure st

/-- Lines 84-103 of Symbol.prototype.join: the index maintenance performed
before the pointers move — `if (this.next)` guards a `deleteDigram` on the
left symbol and the two triple re-seedings (right endpoint first); the
pointers themselves are untouched here. -/
def joinDigramPart (st : St) (l r : Nat) : Option St := do
  let ls ← getSym st l
  match ls.next with
  | none => pure st
  | some _ => do
      let stA ← deleteDigram st l
      let stB ← tripleReseed stA r
      tripleReseed stB l

/-- Symbol.prototype.join (script.js:82-106): the index maintenance above,
then link `l.next = r`, `r.prev = l`. -/
def join (st : St) (l r : Nat) : Option St := do
  let st1 ← joinDigramPart st l r
  let ls3 ← getSym st1 l
  let st2 := setSym st1 l { ls3 with next := some r }
  let rs3 ← getSym st2 r
  pure (setSym st2 r { rs3 with prev := some l })

/-- Symbol.prototype.delete (script.js:112-120): splice out, scrub any index
entry still pointing here, and decrement the referenced rule's count. -/
def delete (st : St) (x : Nat) : Option St := do
  let s ← getSym st x
  let p ← s.prev
  let n ← s.next
  let st1 ← join st p n
  let g ← isGuard st1 x
  if g then pure st1
  else do
    let st2 ← deleteDigram st1 x
    let s2 ← getSym st2 x
    match s2.rule with
    | some r => do
        let rd ← getRuleD st2 r
        pure (setRuleD st2 r { rd with referenceCount := rd.referenceCount - 1 })
    | none => pure st2

/-- Symbol.prototype.insertAfter (script.js:138-141):
`symbol.join(this.next); this.join(symbol)`. -/
def insertAfter (st : St) (x s : Nat) : Option St := do
  let xs ← getSym st x
  let n ← xs.next
  let st1 ← join st s n
  join st1 x s

/-- new Symbol(value) for a string terminal (script.js:62-63). -/
def newTerminalSymbol (st : St) (t : String) : St × Nat :=
  let i := st.nextSymId
  ({ st with syms := alUpdate st.syms i { terminal := some t }, nextSymId := i + 1 }, i)

/-- new Symbol(rule) for a `Rule` object (script.js:70-73): stores the
reference and increments the rule's reference count. -/
def newRuleSymbol (st : St) (r : Nat) : Option (St × Nat) := do
  let rd ← getRuleD st r
  let i := st.nextSymId
  pure ({ st with
            syms := alUpdate st.syms i { rule := some r },
            rules := alUpdate st.rules r { rd with referenceCount := rd.referenceCount + 1 },
            nextSymId := i + 1 }, i)

/-- new Symbol(sym) for a `Symbol` object (script.js:64-69): copy the
terminal if it is truthy, otherwise copy the rule reference (incrementing
its count).  An empty-string terminal or a value-less symbol falls into the
constructor's junk branch (it would treat the symbol itself as a rule) and
is not modelled; it cannot arise from the driver. -/
def newCopySymbol (st : St) (src : Nat) : Option (St × Nat) := do
  let s ← getSym st src
  match s.terminal with
  | some t => if t == "" then none else pure (newTerminalSymbol st t)
  | none =>
      match s.rule with
      | some r => newRuleSymbol st r
      | none => none

/-- new Rule() (script.js:1-18): allocate the guard — `new Symbol(this)`
stores the owning rule in the guard's `rule` field; the constructor assigns
`referenceCount = 0` afterwards, wiping the increment the guard's
construction performed on the then-undefined count — and self-link it
(`guard.join(guard)` runs with `next` still null, so the digram code in
`join` is skipped). -/
def newRule (st : St) : St × Nat :=
  let r := st.nextRuleNumber
  let g := st.nextSymId
  ({ st with
      syms := alUpdate st.syms g { next := some g, prev := some g, rule := some r },
      rules := alUpdate st.rules r { guard := g, referenceCount := 0 },
      nextSymId := g + 1,
      nextRuleNumber := r + 1 }, r)

/-- Lines 197-207 of Symbol.prototype.expand: capture the neighbours and the
rule's first/last symbols, remove the receiver's own index entry if it
points at the receiver, and splice the rule's body in place of the
receiver.  Returns the spliced state and the id of the rule's (former) last
symbol. -/
def expandCore (st : St) (x : Nat) : Option (St × Nat) := do
  let s ← getSym st x
  let l ← s.prev
  let r ← s.next
  let rid ← s.rule
  let rd ← getRuleD st rid
  let g ← getSym st rd.guard
  let f ← g.next
  let last ← g.prev
  let h ← hashValue st x
  let st1 :=
    match st.digramIndex.lookup h with
    | some (some j) =>
        if j == x then { st with digramIndex := alUpdate st.digramIndex h none } else st
    | _ => st
  let st2 ← join st1 l f
  let st3 ← join st2 last r
  pure (st3, last)

/-- Symbol.prototype.expand (script.js:196-210): splice the rule body in
place of the receiver, then write the right boundary digram straight into
the index (`digramIndex[last.hashValue()] = last`, line 209) — no check, no
match processing. -/
def expand (st : St) (x : Nat) : Option St := do
  let (st3, last) ← expandCore st x
  let h2 ← hashValue st3 last
  pure { st3 with digramIndex := alUpdate st3.digramIndex h2 (some last) }

/-- The trailing underused-rule check of processMatch (script.js:252-256):
if the rule's first symbol is a non-terminal whose rule has reference count
1, expand it. -/
def underusedCheck (st : St) (rid : Nat) : Option St := do
  let rd ← getRuleD st rid
  let g ← getSym st rd.guard
  let f ← g.next
  let fs ← getSym st f
  match fs.rule with
  | none => pure st
  | some r2 => do
      let rd2 ← getRuleD st r2
      if rd2.referenceCount == 1 then expand st f else pure st

/-- Lines 216-221 of Symbol.prototype.substitute: capture `prev`, delete the
two symbols after it (the matched digram), and insert a fresh non-terminal
referencing `rid`.  Returns the new state, `prev`, and the id of the new
symbol. -/
def substituteCore (st : St) (x rid : Nat) : Option (St × Nat × Nat) := do
  let s ← getSym st x
  let p ← s.prev
  let ps ← getSym st p
  let c1 ← ps.next
  let st1 ← delete st c1
  let ps1 ← getSym st1 p
  let c2 ← ps1.next
  let st2 ← delete st1 c2
  let (st3, a) ← newRuleSymbol st2 rid
  let st4 ← insertAfter st3 p a
  pure (st4, p, a)

/-- Return value of check() (script.js:174-189): the source returns the
falsy `0` when either symbol is a guard, the falsy `false` after recording
a new digram, and the truthy `true` when an index entry was found (whether
or not processMatch was invoked). -/
inductive CheckResult where
  | guardStop
  | noMatch
  | matched
deriving DecidableEq, Repr

/-- The body of Symbol.prototype.check (script.js:174-189), parameterized by
the processMatch it may invoke. -/
def checkBody (pm : St → Nat → Nat → Option St) (st : St) (x : Nat) :
    Option (St × CheckResult) := do
  let gx ← isGuard st x
  if gx then pure (st, CheckResult.guardStop)
  else do
    let s ← getSym st x
    let n ← s.next
    let gn ← isGuard st n
    if gn then pure (st, CheckResult.guardStop)
    else do
      let h ← hashValue st x
      match st.digramIndex.lookup h with
      | none =>
          pure ({ st with digramIndex := alUpdate st.digramIndex h (some x) },
                CheckResult.noMatch)
      | some none =>
          pure ({ st with digramIndex := alUpdate st.digramIndex h (some x) },
                CheckResult.noMatch)
      | some (some m) => do
          let ms ← getSym st m
          if ms.next == some x then pure (st, CheckResult.matched)
          else do
            let st1 ← pm st x m
            pure (st1, CheckResult.matched)

/-- The body of Symbol.prototype.substitute (script.js:215-226): delete the
digram, insert the non-terminal, check the left neighbour and — when that
check returned a falsy value — the right neighbour too.  Parameterized by
the check it invokes. -/
def substituteBody (chk : St → Nat → Option (St × CheckResult)) (st : St) (x rid : Nat) :
    Option St := do
  let (st4, p, _a) ← substituteCore st x rid
  let (st5, res) ← chk st4 p
  match res with
  | CheckResult.matched => pure st5
  | _ => do
      let ps5 ← getSym st5 p
      let nn ← ps5.next
      let (st6, _) ← chk st5 nn
      pure st6

/-- rule.last(), i.e. the rule's guard's prev (script.js:26-28). -/
def ruleLast (st : St) (rid : Nat) : Option Nat := do
  let rd ← getRuleD st rid
  let g ← getSym st rd.guard
  g.prev

/-- rule.first(), i.e. the rule's guard's next (script.js:22-24). -/
def ruleFirst (st : St) (rid : Nat) : Option Nat := do
  let rd ← getRuleD st rid
  let g ← getSym st rd.guard
  g.next

/-- Lines 241-244 of processMatch's create branch: `rule = new Rule()`, then
insert copies of `this` and `this.getNext()` after the rule's last symbol.
Returns the state and the fresh rule's id. -/
def buildDigramRule (st : St) (x : Nat) : Option (St × Nat) := do
  let (st1, rid) := newRule st
  let l1 ← ruleLast st1 rid
  let (st2, c1) ← newCopySymbol st1 x
  let st3 ← insertAfter st2 l1 c1
  let l3 ← ruleLast st3 rid
  let xs ← getSym st3 x
  let xn ← xs.next
  let (st4, c2) ← newCopySymbol st3 xn
  let st5 ← insertAfter st4 l3 c2
  pure (st5, rid)

/-- The create branch of processMatch (script.js:240-249): build a fresh
rule whose body is a copy of the digram, substitute both occurrences (the
older, disjoint one at `m` first), and register the new rule's first digram
in the index. -/
def processMatchCreateBody (sub : St → Nat → Nat → Option St) (st : St) (x m : Nat) :
    Option (St × Nat) := do
  let (st5, rid) ← buildDigramRule st x
  let st6 ← sub st5 m rid
  let st7 ← sub st6 x rid
  let f7 ← ruleFirst st7 rid
  let h ← hashValue st7 f7
  pure ({ st7 with digramIndex := alUpdate st7.digramIndex h (some f7) }, rid)

/-- The body of Symbol.prototype.processMatch (script.js:231-257): reuse the
matched rule when the older occurrence is the entire body of its rule,
otherwise create a fresh rule; in both cases finish with the underused-rule
check. -/
def processMatchBody (sub : St → Nat → Nat → Option St)
    (pmc : St → Nat → Nat → Option (St × Nat)) (st : St) (x m : Nat) : Option St := do
  let ms ← getSym st m
  let mp ← ms.prev
  let gp ← isGuard st mp
  let reuse ←
    if gp then do
      let mn ← ms.next
      let mns ← getSym st mn
      let mnn ← mns.next
      isGuard st mnn
    else pure false
  if reuse then do
    let mps ← getSym st mp
    let rid ← mps.rule
    let st1 ← sub st x rid
    underusedCheck st1 rid
  else do
    let (st1, rid) ← pmc st x m
    underusedCheck st1 rid

/-- The four mutually recursive engine operations at one fuel level.  The
source's recursion (check ↔ processMatch ↔ substitute) is untangled by
recursion on fuel: level `fuel + 1` operations invoke level `fuel`
operations, and level 0 is out-of-gas (`none`). -/
structure EngineFns where
  check : St → Nat → Option (St × CheckResult)
  processMatch : St → Nat → Nat → Option St
  processMatchCreate : St → Nat → Nat → Option (St × Nat)
  substitute : St → Nat → Nat → Option St

def engine : Nat → EngineFns
  | 0 =>
      { check := fun _ _ => none,
        processMatch := fun _ _ _ => none,
        processMatchCreate := fun _ _ _ => none,
        substitute := fun _ _ _ => none }
  | fuel + 1 =>
      let e := engine fuel
      { check := checkBody e.processMatch,
        processMatch := processMatchBody e.substitute e.processMatchCreate,
        processMatchCreate := processMatchCreateBody e.substitute,
        substitute := substituteBody e.check }

/-- Symbol.prototype.check (script.js:174-189), with fuel. -/
def check (fuel : Nat) (st : St) (x : Nat) : Option (St × CheckResult) :=
  (engine fuel).check st x

/-- Symbol.prototype.processMatch (script.js:231-257), with fuel. -/
def processMatch (fuel : Nat) (st : St) (x m : Nat) : Option St :=
  (engine fuel).processMatch st x m

/-- Symbol.prototype.substitute (script.js:215-226), with fuel. -/
def substitute (fuel : Nat) (st : St) (x rid : Nat) : Option St :=
  (engine fuel).substitute st x rid

/-- One append without a check: `S.last().insertAfter(new Symbol(t))`
(script.js:618).  The start rule S₀ is always rule 1, the first rule `main`
allocates. -/
def appendTerminal (st : St) (t : String) : Option St := do
  let rd ← getRuleD st 1
  let g ← getSym st rd.guard
  let last ← g.prev
  let (st1, i) := newTerminalSymbol st t
  insertAfter st1 last i

/-- One iteration of main's driver loop (script.js:622-623): append the
terminal, then `S.last().getPrev().check()` — check on the left neighbour
of the new symbol. -/
def step (fuel : Nat) (st : St) (t : String) : Option St := do
  let st1 ← appendTerminal st t
  let rd ← getRuleD st1 1
  let g ← getSym st1 rd.guard
  let last ← g.prev
  let ls ← getSym st1 last
  let p ← ls.prev
  let (st2, _) ← check fuel st1 p
  pure st2

/-- The fresh heap built by main (script.js:611-612): the digram index is
cleared and S₀ allocated; S₀ gets rule id 1 and guard symbol id 0. -/
def initSt : St :=
  (newRule { syms := [], rules := [], digramIndex := [], nextSymId := 0, nextRuleNumber := 1 }).1

def runFrom (fuel : Nat) (st : St) : List String → Option St
  | [] => some st
  | t :: rest => do
      let st1 ← step fuel st t
      runFrom fuel st1 rest

/-- The driver loop of main (script.js:617-624): the first symbol is
appended without a check, each later symbol is appended and the left
neighbour of the new symbol checked. -/
def run (fuel : Nat) (input : List String) : Option St :=
  match input with
  | [] => some initSt
  | t :: rest => do
      let st1 ← appendTerminal initSt t
      runFrom fuel st1 rest

/-! Observers: traversals of the resulting grammar, used to state the
claims.  They are not part of the source engine (the source's printing
functions traverse the same structure the same way, script.js:286-309). -/

/-- Walk a rule body from symbol `i` until the guard, collecting ids; the
fuel bounds the walk on malformed (non-circular) states. -/
def walkIds (st : St) : Nat → Nat → Option (List Nat)
  | 0, _ => none
  | f + 1, i => do
      let g ← isGuard st i
      if g then pure []
      else do
        let s ← getSym st i
        let n ← s.next
        let rest ← walkIds st f n
        pure (i :: rest)

/-- Ids of the non-guard symbols of a rule's body, in order. -/
def bodyIds (st : St) (rid : Nat) : Option (List Nat) := do
  let rd ← getRuleD st rid
  let g ← getSym st rd.guard
  let f ← g.next
  walkIds st (st.syms.length + 1) f

/-- Values of a rule's body symbols, in order. -/
def ruleBodyValues (st : St) (rid : Nat) : Option (List JsVal) := do
  let ids ← bodyIds st rid
  ids.mapM (fun i => value st i)

/-- Ids of every rule ever allocated (in allocation order). -/
def allocatedRuleIds (st : St) : List Nat :=
  st.rules.map (·.1)

/-- Rule ids referenced by the non-terminals in a rule's body. -/
def ruleRefs (st : St) (rid : Nat) : Option (List Nat) := do
  let ids ← bodyIds st rid
  pure (ids.filterMap fun i => (getSym st i).bind (·.rule))

def reachAux (st : St) : Nat → List Nat → List Nat → Option (List Nat)
  | 0, _, _ => none
  | _ + 1, [], seen => some seen
  | f + 1, r :: todo, seen =>
      if seen.contains r then reachAux st f todo seen
      else do
        let refs ← ruleRefs st r
        reachAux st f (todo ++ refs) (seen ++ [r])

/-- Rules reachable from S₀ (rule 1) through non-terminal references. -/
def reachableRules (st : St) (fuel : Nat) : Option (List Nat) :=
  reachAux st fuel [1] []

/-- Fully expand a list of symbol ids to their terminal strings,
recursively replacing each non-terminal by its rule's body; the fuel bounds
the total work (it decreases on every recursive call, so the recursion is
structural and kernel-reducible). -/
def expandIds (st : St) : Nat → List Nat → Option (List String)
  | 0, _ => none
  | _ + 1, [] => some []
  | f + 1, i :: rest => do
      let s ← getSym st i
      let head ←
        match s.rule with
        | some r => do
            let ids ← bodyIds st r
            expandIds st f ids
        | none => do
            let t ← s.terminal
            pure [t]
      let tail ← expandIds st f rest
      pure (head ++ tail)

/-- Full recursive expansion of S₀'s body into terminals. -/
def expandStart (st : St) : Option (List String) := do
  let ids ← bodyIds st 1
  expandIds st ((st.syms.length + 2) * (st.rules.length + 2)) ids

/-- The digrams of one rule body: for every adjacent non-guard pair, the
digram key together with the id of its left symbol. -/
def digramsOfRule (st : St) (rid : Nat) : Option (List (String × Nat)) := do
  let ids ← bodyIds st rid
  ids.dropLast.mapM fun i => do
    let h ← hashValue st i
    pure (h, i)

/-- All digram occurrences in the grammar reachable from S₀. -/
def allDigrams (st : St) (fuel : Nat) : Option (List (String × Nat)) := do
  let rs ← reachableRules st fuel
  let ls ← rs.mapM fun r => digramsOfRule st r
  pure ls.flatten

/-- The left symbols of every occurrence of a given digram key in the
reachable grammar, in traversal order. -/
def occurrencesOfKey (st : St) (fuel : Nat) (key : String) : Option (List Nat) := do
  let ds ← allDigrams st fuel
  pure ((ds.filter (fun d => d.1 == key)).map (·.2))

/-! Definitions modelled from the specification's words rather than the
source, for comparison with the source-derived definitions above. -/

/-- Modelled from the spec (§4.4 substitute, claim C6): substitute as the
claim words it — check the right neighbour if and only if the left check
*recorded a new digram* (returned `false` after a no-match lookup). -/
def substituteClaim (fuel : Nat) (st : St) (x rid : Nat) : Option St := do
  let (st4, p, _a) ← substituteCore st x rid
  let (st5, res) ← check fuel st4 p
  match res with
  | CheckResult.noMatch => do
      let ps5 ← getSym st5 p
      let nn ← ps5.next
      let (st6, _) ← check fuel st5 nn
      pure st6
  | _ => pure st5

/-- The amended claim C6: substitute checks the right neighbour if and only
if the left check returned a *falsy* value — either it recorded a new
digram, or it returned `0` because the left neighbour (or its successor)
is a guard.  A truthy return (an index entry was found, whether processed
or not) skips the right check. -/
def substituteAmended (fuel : Nat) (st : St) (x rid : Nat) : Option St := do
  let (st4, p, _a) ← substituteCore st x rid
  let (st5, res) ← check fuel st4 p
  if res = CheckResult.matched then pure st5
  else do
    let ps5 ← getSym st5 p
    let nn ← ps5.next
    let (st6, _) ← check fuel st5 nn
    pure st6

/-- Modelled from the spec (claim C7): expand as the claim words it — after
the splice, a final `check()` is performed on the boundary digram (so a
match there is processed), instead of the source's direct index write. -/
def expandChecked (fuel : Nat) (st : St) (x : Nat) : Option St := do
  let (st3, last) ← expandCore st x
  let (st4, _) ← check fuel st3 last
  pure st4

/-! Concrete states used by the counterexamples and witnesses. -/

/-- A grammar with S₀ (rule 1, guard 0) = a b c and a second rule
(rule 2, guard 4) = a b with one outstanding reference; the digram index is
empty.  Substituting S₀'s digram `a b` by rule 2 puts the new non-terminal
at the very start of S₀'s body, so the left-neighbour check hits the guard. -/
def stC6 : St :=
  { syms := [(0, { next := some 1, prev := some 3, rule := some 1 }),
             (1, { next := some 2, prev := some 0, terminal := some "a" }),
             (2, { next := some 3, prev := some 1, terminal := some "b" }),
             (3, { next := some 0, prev := some 2, terminal := some "c" }),
             (4, { next := some 5, prev := some 6, rule := some 2 }),
             (5, { next := some 6, prev := some 4, terminal := some "a" }),
             (6, { next := some 4, prev := some 5, terminal := some "b" })],
    rules := [(1, { guard := 0, referenceCount := 0 }),
              (2, { guard := 4, referenceCount := 1 })],
    digramIndex := [],
    nextSymId := 7,
    nextRuleNumber := 3 }

/-- The state after the deletions and insertion of
`substitute stC6 1 2` (the two symbols a b of S₀ replaced by a fresh
non-terminal, id 7, referencing rule 2). -/
def stC6post : St :=
  ((substituteCore stC6 1 2).getD (stC6, 0, 0)).1

/-- A grammar with S₀ (rule 1, guard 0) = A q where A (id 1) references
rule 2 (guard 3, body x y, reference count 1), and a separate rule 3
(guard 6, body y q) whose first digram `y q` is indexed.  Expanding A
splices x y before q, creating the boundary digram `y q` that already has
an indexed occurrence elsewhere. -/
def stE : St :=
  { syms := [(0, { next := some 1, prev := some 2, rule := some 1 }),
             (1, { next := some 2, prev := some 0, rule := some 2 }),
             (2, { next := some 0, prev := some 1, terminal := some "q" }),
             (3, { next := some 4, prev := some 5, rule := some 2 }),
             (4, { next := some 5, prev := some 3, terminal := some "x" }),
             (5, { next := some 3, prev := some 4, terminal := some "y" }),
             (6, { next := some 7, prev := some 8, rule := some 3 }),
             (7, { next := some 8, prev := some 6, terminal := some "y" }),
             (8, { next := some 6, prev := some 7, terminal := some "q" })],
    rules := [(1, { guard := 0, referenceCount := 0 }),
              (2, { guard := 3, referenceCount := 1 }),
              (3, { guard := 6, referenceCount := 2 })],
    digramIndex := [("y+q", some 7)],
    nextSymId := 9,
    nextRuleNumber := 4 }

/-- The state after the splices of `expandCore stE 1`. -/
def stEcore : St :=
  ((expandCore stE 1).getD (stE, 0)).1

/-- The state after `expand stE 1`. -/
def stEpost : St :=
  (expand stE 1).getD stE

/-- A grammar with S₀ (rule 1, guard 0) = a b whose digram index maps the
key `a+b` to symbol 1 — the left symbol of that very digram, i.e. the
stored entry *is* L itself. -/
def stC9 : St :=
  { syms := [(0, { next := some 1, prev := some 2, rule := some 1 }),
             (1, { next := some 2, prev := some 0, terminal := some "a" }),
             (2, { next := some 0, prev := some 1, terminal := some "b" })],
    rules := [(1, { guard := 0, referenceCount := 0 })],
    digramIndex := [("a+b", some 1)],
    nextSymId := 3,
    nextRuleNumber := 2 }

/-- The engine state after driving the input a, a, a. -/
def aaaSt : St :=
  (run 50 ["a", "a", "a"]).getD initSt

/-! Unfolding lemmas for the fuelled engine and for `Option` binds as the
do-notation produces them. -/

theorem someBind {α β : Type} (a : α) (f : α → Option β) : (some a >>= f) = f a := rfl

theorem noneBind {α β : Type} (f : α → Option β) : ((none : Option α) >>= f) = none := rfl

theorem check_succ (fuel : Nat) (st : St) (x : Nat) :
    check (fuel + 1) st x = checkBody (fun s a b => processMatch fuel s a b) st x := rfl

theorem substitute_succ (fuel : Nat) (st : St) (x rid : Nat) :
    substitute (fuel + 1) st x rid = substituteBody (fun s a => check fuel s a) st x rid := rfl

/-- check() on a guard symbol returns the falsy 0 with the state untouched
(script.js:175-177). -/
theorem check_guard (fuel : Nat) (st : St) (x : Nat) (h : isGuard st x = some true) :
    check (fuel + 1) st x = some (st, CheckResult.guardStop) := by
  rw [check_succ]
  unfold checkBody
  rw [h]
  rfl

/-! Preservation of the rule table by the splicing operations: none of
`deleteDigram`, `tripleReseed`, `join`, `expandCore`, `expand` ever touches
a reference count. -/

theorem deleteDigram_rules {st st' : St} {x : Nat} (h : deleteDigram st x = some st') :
    st'.rules = st.rules := by
  unfold deleteDigram at h
  obtain ⟨gx, hgx, h⟩ := Option.bind_eq_some.mp h
  split at h
  · cases h; rfl
  · obtain ⟨s, hs, h⟩ := Option.bind_eq_some.mp h
    obtain ⟨n, hn, h⟩ := Option.bind_eq_some.mp h
    obtain ⟨gn, hgn, h⟩ := Option.bind_eq_some.mp h
    split at h
    · cases h; rfl
    · obtain ⟨hv, hhv, h⟩ := Option.bind_eq_some.mp h
      split at h
      · split at h <;> (cases h; rfl)
      · cases h; rfl

theorem tripleReseed_rules {st st' : St} {x : Nat} (h : tripleReseed st x = some st') :
    st'.rules = st.rules := by
  unfold tripleReseed at h
  obtain ⟨s, hs, h⟩ := Option.bind_eq_some.mp h
  split at h
  · split at h
    · obtain ⟨hv, hhv, h⟩ := Option.bind_eq_some.mp h
      cases h; rfl
    · cases h; rfl
  · cases h; rfl

theorem joinDigramPart_rules {st st' : St} {l r : Nat}
    (h : joinDigramPart st l r = some st') : st'.rules = st.rules := by
  unfold joinDigramPart at h
  obtain ⟨ls, hls, h⟩ := Option.bind_eq_some.mp h
  split at h
  · cases h; rfl
  · obtain ⟨stA, hA, h⟩ := Option.bind_eq_some.mp h
    obtain ⟨stB, hB, h⟩ := Option.bind_eq_some.mp h
    rw [tripleReseed_rules h, tripleReseed_rules hB, deleteDigram_rules hA]

theorem join_rules {st st' : St} {l r : Nat} (h : join st l r = some st') :
    st'.rules = st.rules := by
  unfold join at h
  obtain ⟨st1, h1, h⟩ := Option.bind_eq_some.mp h
  obtain ⟨ls3, hls3, h⟩ := Option.bind_eq_some.mp h
  obtain ⟨rs3, hrs3, h⟩ := Option.bind_eq_some.mp h
  cases h
  show st1.rules = st.rules
  exact joinDigramPart_rules h1

theorem expandCore_rules {st st3 : St} {x last : Nat}
    (h : expandCore st x = some (st3, last)) : st3.rules = st.rules := by
  unfold expandCore at h
  obtain ⟨s, hs, h⟩ := Option.bind_eq_some.mp h
  obtain ⟨l, hl, h⟩ := Option.bind_eq_some.mp h
  obtain ⟨r, hr, h⟩ := Option.bind_eq_some.mp h
  obtain ⟨rid, hrid, h⟩ := Option.bind_eq_some.mp h
  obtain ⟨rd, hrd, h⟩ := Option.bind_eq_some.mp h
  obtain ⟨g, hg, h⟩ := Option.bind_eq_some.mp h
  obtain ⟨f, hf, h⟩ := Option.bind_eq_some.mp h
  obtain ⟨la, hla, h⟩ := Option.bind_eq_some.mp h
  obtain ⟨hv, hhv, h⟩ := Option.bind_eq_some.mp h
  obtain ⟨st2, h2, h⟩ := Option.bind_eq_some.mp h
  obtain ⟨stJ, hJ, h⟩ := Option.bind_eq_some.mp h
  cases h
  have h2r := join_rules h2
  have hJr := join_rules hJ
  rw [hJr, h2r]
  split
  · split <;> rfl
  · rfl

/-! Claim theorems. -/

/-- Claim C5: on input a, a, a, a the driver terminates having allocated
exactly two rules — S₀ (id 1) whose body is two non-terminals both
referencing rule 2, and rule 2 whose body is the two terminals a a; no
third rule exists. -/
theorem aaaa_two_rules :
    (run 50 ["a", "a", "a", "a"]).map allocatedRuleIds = some [1, 2] ∧
    (run 50 ["a", "a", "a", "a"]).bind (fun st => ruleBodyValues st 1)
      = some [JsVal.ruleRef 2, JsVal.ruleRef 2] ∧
    (run 50 ["a", "a", "a", "a"]).bind (fun st => ruleBodyValues st 2)
      = some [JsVal.str "a", JsVal.str "a"] := by decide

/-- Claim C1 (failing run): driving the eight terminals a a a b a b a a
through the loop terminates, but fully expanding S₀ yields
a a a a b a a — seven terminals, not the input.  The stale `a+a` index
entry re-seeded by join's triple handling survives the relinking of its
symbol, and the eighth append matches it although the recorded "occurrence"
is no longer an a a digram. -/
theorem expansion_fails_on_aaababaa :
    (run 50 ["a", "a", "a", "b", "a", "b", "a", "a"]).bind expandStart
      = some ["a", "a", "a", "a", "b", "a", "a"] ∧
    (run 50 ["a", "a", "a", "b", "a", "b", "a", "a"]).bind expandStart
      ≠ some ["a", "a", "a", "b", "a", "b", "a", "a"] := by decide

/-- Claim C2 (failing runs): after input a a a b b a b a a b the digram
a b occurs twice in the reachable grammar, at symbols 17 and 9, and the two
occurrences do not overlap (17's successor is 23 and 9's is 10), so this is
not the tolerated triple overlap; moreover after input a a a the digram
a a occurs as the two overlapping halves 1-2 and 2-3 of the triple, but the
index records the first occurrence (symbol 1), not the second. -/
theorem digram_uniqueness_violated :
    (run 50 ["a", "a", "a", "b", "b", "a", "b", "a", "a", "b"]).bind
        (fun st => occurrencesOfKey st 50 "a+b") = some [17, 9] ∧
    (run 50 ["a", "a", "a", "b", "b", "a", "b", "a", "a", "b"]).bind
        (fun st => (getSym st 17).bind (·.next)) = some 23 ∧
    (run 50 ["a", "a", "a", "b", "b", "a", "b", "a", "a", "b"]).bind
        (fun st => (getSym st 9).bind (·.next)) = some 10 ∧
    (run 50 ["a", "a", "a"]).bind (fun st => occurrencesOfKey st 50 "a+a")
      = some [1, 2] ∧
    (run 50 ["a", "a", "a"]).bind (fun st => (getSym st 1).bind (·.next)) = some 2 ∧
    (run 50 ["a", "a", "a"]).bind (fun st => st.digramIndex.lookup "a+a")
      = some (some 1) := by decide

/-- Claim C3 (failing run): after input a a a b a b a a the reachable rules
are 1, 3 and 2, and rule 2 — reachable from S₀ and distinct from it — has
reference count 1, violating rule utility. -/
theorem rule_utility_violated :
    (run 50 ["a", "a", "a", "b", "a", "b", "a", "a"]).bind
        (fun st => reachableRules st 50) = some [1, 3, 2] ∧
    (run 50 ["a", "a", "a", "b", "a", "b", "a", "a"]).bind
        (fun st => (getRuleD st 2).map (·.referenceCount)) = some 1 := by decide

/-- Claim C6 (counterexample): at `stC6` the substituted digram sits at the
start of S₀'s body, so the left check returns the guard's falsy 0 without
recording anything — yet the source still checks the right neighbour
(recording `rule:2+c`), while the claim's version (right check iff a new
digram was recorded) skips it.  The two disagree. -/
theorem substitute_claim_counterexample :
    substitute 20 stC6 1 2 ≠ substituteClaim 20 stC6 1 2 ∧
    (substitute 20 stC6 1 2).bind (fun st => st.digramIndex.lookup "rule:2+c")
      = some (some 7) ∧
    (substituteClaim 20 stC6 1 2).bind (fun st => st.digramIndex.lookup "rule:2+c")
      = none := by decide

/-- Claim C6 (amended): substitute deletes the two symbols of the digram,
inserts the fresh non-terminal, checks the left neighbour, and checks the
right neighbour if and only if the left check returned a falsy value — it
recorded a new digram, or it stopped at a guard. -/
theorem substitute_matches_amended (fuel : Nat) (st : St) (x rid : Nat) :
    substitute (fuel + 1) st x rid = substituteAmended fuel st x rid := by
  rw [substitute_succ]
  unfold substituteBody substituteAmended
  cases hc : substituteCore st x rid with
  | none => rfl
  | some v =>
      obtain ⟨st4, p, a⟩ := v
      simp only [someBind]
      cases hch : check fuel st4 p with
      | none => rfl
      | some w =>
          obtain ⟨st5, res⟩ := w
          simp only [someBind]
          cases res <;> rfl

/-- Claim C7 (counterexample): at `stE` expanding the non-terminal merely
overwrites the index entry for the boundary digram `y q` (leaving S₀'s
body as the spliced x y q), whereas the claim's version — a final check()
on the boundary digram — would find the indexed occurrence in rule 3 and
process the match, substituting it.  The source's expand is not the
claim's. -/
theorem expand_no_check_counterexample :
    expand stE 1 ≠ expandChecked 20 stE 1 ∧
    (expand stE 1).bind (fun st => st.digramIndex.lookup "y+q") = some (some 5) ∧
    (expand stE 1).bind (fun st => ruleBodyValues st 1)
      = some [JsVal.str "x", JsVal.str "y", JsVal.str "q"] ∧
    (expandChecked 20 stE 1).bind (fun st => ruleBodyValues st 1)
      = some [JsVal.str "x", JsVal.ruleRef 3] := by decide

/-- Claim C7 (amended): when, after the substitutions of processMatch, the
first symbol of the referenced rule is a non-terminal whose rule has
reference count 1, expand() is invoked on it, and after the inner rule's
contents are spliced in place of the outer symbol the rightmost boundary
digram is written directly into the index (overwriting any entry for that
key); no check() is performed there, so a match is never processed. -/
theorem underused_expand_direct_write (st st3 : St) (rid fi r2 last : Nat)
    (hkey : String) (rd rd2 : RuleData) (g fs : Sym)
    (h1 : getRuleD st rid = some rd) (h2 : getSym st rd.guard = some g)
    (h3 : g.next = some fi) (h4 : getSym st fi = some fs) (h5 : fs.rule = some r2)
    (h6 : getRuleD st r2 = some rd2) (h7 : rd2.referenceCount = 1)
    (h8 : expandCore st fi = some (st3, last)) (h9 : hashValue st3 last = some hkey) :
    underusedCheck st rid = expand st fi ∧
    expand st fi
      = some { st3 with digramIndex := alUpdate st3.digramIndex hkey (some last) } := by
  constructor
  · unfold underusedCheck
    rw [h1]
    simp only [someBind]
    rw [h2]
    simp only [someBind]
    rw [h3]
    simp only [someBind]
    rw [h4]
    simp only [someBind, h5, h6, h7]
    rfl
  · unfold expand
    rw [h8]
    simp only [someBind]
    rw [h9]
    simp only [someBind]
    rfl

/-- Witness for the amended claim C7, at the concrete state `stE`. -/
theorem underused_expand_direct_write_w :
    underusedCheck stE 1 = expand stE 1 ∧
    expand stE 1
      = some { stEcore with digramIndex := alUpdate stEcore.digramIndex "y+q" (some 5) } :=
  underused_expand_direct_write stE stEcore 1 1 2 5 "y+q"
    { guard := 0, referenceCount := 0 }
    { guard := 3, referenceCount := 1 }
    { next := some 1, prev := some 2, terminal := none, rule := some 1 }
    { next := some 2, prev := some 0, terminal := none, rule := some 2 }
    (by rfl) (by rfl) (by rfl) (by rfl) (by rfl) (by rfl) (by rfl) (by rfl) (by rfl)

/-- Claim C8 (counterexample): after input a b c a b c a b c the rules with
ids 2 and 4 have been dissolved by expansion — they are no longer reachable
from S₀ — yet each still has reference count 1, not 0: no dissolution ever
dropped a count to zero. -/
theorem dissolved_rule_keeps_refcount_one :
    (run 60 ["a", "b", "c", "a", "b", "c", "a", "b", "c"]).map allocatedRuleIds
      = some [1, 2, 3, 4] ∧
    (run 60 ["a", "b", "c", "a", "b", "c", "a", "b", "c"]).bind
        (fun st => reachableRules st 30) = some [1, 3] ∧
    (run 60 ["a", "b", "c", "a", "b", "c", "a", "b", "c"]).bind
        (fun st => (getRuleD st 2).map (·.referenceCount)) = some 1 ∧
    (run 60 ["a", "b", "c", "a", "b", "c", "a", "b", "c"]).bind
        (fun st => (getRuleD st 4).map (·.referenceCount)) = some 1 := by decide

/-- Claim C8 (amended): expansion never touches the rule table — when a
rule is dissolved by expand() its reference count is 1 (the value that
triggered the expansion) and stays 1; the rule's body symbols are spliced
into the enclosing rule and the rule itself merely becomes unreachable. -/
theorem expand_preserves_rules (st st' : St) (x : Nat) (h : expand st x = some st') :
    st'.rules = st.rules := by
  unfold expand at h
  obtain ⟨v, hc, h⟩ := Option.bind_eq_some.mp h
  obtain ⟨st3, last⟩ := v
  dsimp only at h
  obtain ⟨hv, hhv, h⟩ := Option.bind_eq_some.mp h
  cases h
  show st3.rules = st.rules
  exact expandCore_rules hc

/-- Witness for the amended claim C8, at the concrete state `stE`. -/
theorem expand_preserves_rules_w : stEpost.rules = stE.rules :=
  expand_preserves_rules stE stEpost 1 (by rfl)

/-- Claim C9 (counterexample): at `stC9` the index entry for L's digram key
is L itself (symbol 1), one of the claim's "match at the same place"
configurations — but check() does not return without action: it invokes
processMatch and mutates the state. -/
theorem check_same_entry_acts :
    stC9.digramIndex.lookup "a+b" = some (some 1) ∧
    (check 30 stC9 1).map Prod.fst ≠ some stC9 := by decide

/-- Claim C9 (amended): the only "same place" configuration check() returns
from without action is the one the source tests — the stored entry M
satisfies M.next == L, i.e. the stored digram ends where the new one
begins; the state is returned unchanged with the truthy result. -/
theorem check_adjacent_no_action (fuel : Nat) (st : St) (x n m : Nat) (s ms : Sym)
    (hk : String)
    (hgx : isGuard st x = some false) (hs : getSym st x = some s) (hn : s.next = some n)
    (hgn : isGuard st n = some false) (hh : hashValue st x = some hk)
    (hl : st.digramIndex.lookup hk = some (some m)) (hm : getSym st m = some ms)
    (hmn : ms.next = some x) :
    check (fuel + 1) st x = some (st, CheckResult.matched) := by
  rw [check_succ]
  simp only [checkBody, someBind, hgx, hs, hn, hgn, hh, hl, hm, hmn, beq_self_eq_true,
    Bool.false_eq_true, if_false, if_true]
  rfl

/-- Witness for the amended claim C9, at the state reached by input
a, a, a: the third append's check on symbol 2 finds the entry at symbol 1,
whose successor is symbol 2 itself, and leaves the state unchanged. -/
theorem check_adjacent_no_action_w :
    check 21 aaaSt 2 = some (aaaSt, CheckResult.matched) :=
  check_adjacent_no_action 20 aaaSt 2 3 1
    { next := some 3, prev := some 1, terminal := some "a", rule := none }
    { next := some 2, prev := some 0, terminal := some "a", rule := none }
    "a+a"
    (by rfl) (by rfl) (by rfl) (by rfl) (by rfl) (by rfl) (by rfl) (by rfl)

/-- Claim C10: when substitute() inserts the new non-terminal at the very
start of a rule's body — the captured left neighbour is the rule's guard —
the left check returns the falsy 0 without recording or matching anything,
so substitute() proceeds to call check() on the new non-terminal itself
(the guard's successor), and the whole substitute is exactly that right
check. -/
theorem substitute_guard_left (fuel : Nat) (st st4 : St) (x rid p a : Nat)
    (hcore : substituteCore st x rid = some (st4, p, a))
    (hg : isGuard st4 p = some true)
    (hnext : (getSym st4 p).bind (·.next) = some a) :
    check (fuel + 1) st4 p = some (st4, CheckResult.guardStop) ∧
    substitute (fuel + 2) st x rid = (check (fuel + 1) st4 a).map Prod.fst := by
  have hcg := check_guard fuel st4 p hg
  refine ⟨hcg, ?_⟩
  rw [substitute_succ]
  unfold substituteBody
  rw [hcore]
  simp only [someBind]
  rw [hcg]
  simp only [someBind]
  obtain ⟨ps, hps, hpn⟩ := Option.bind_eq_some.mp hnext
  rw [hps]
  simp only [someBind]
  rw [hpn]
  simp only [someBind]
  cases check (fuel + 1) st4 a with
  | none => rfl
  | some w => rfl

/-- Witness for claim C10, at the concrete state `stC6`: the captured left
neighbour is S₀'s guard (symbol 0) and the new non-terminal is symbol 7. -/
theorem substitute_guard_left_w :
    check 11 stC6post 0 = some (stC6post, CheckResult.guardStop) ∧
    substitute 12 stC6 1 2 = (check 11 stC6post 7).map Prod.fst :=
  substitute_guard_left 10 stC6 stC6post 1 2 0 7 (by rfl) (by rfl) (by rfl)

end Sequitur
